import Mathlib

/-!
Shallow embedding of the derivation pipeline of the stock-analysis repository:
the statement normalizer and number formatter of `Stock_Research_Analysis.py`,
the KPI extractor of the same file, the RSI indicator of `proto.py`, and the
watchlist aggregator of `watchlist_cardview_v1.py`.  Machine floats are
modelled as rationals; pandas/NumPy missing values (NaN) are modelled with
`Option`.
-/

namespace StockApp

/-- Floor of a rational, computably (the `Int.floor` of the `FloorRing`
instance does not reduce in the kernel). -/
def ratFloor (q : ℚ) : ℤ := q.num / (q.den : ℤ)

theorem ratFloor_eq (q : ℚ) : ratFloor q = ⌊q⌋ := Rat.floor_def.symm

/-- Ceiling of a rational, computably. -/
def ratCeil (q : ℚ) : ℤ := -(ratFloor (-q))

theorem ratCeil_eq (q : ℚ) : ratCeil q = ⌈q⌉ := by
  rw [ratCeil, ratFloor_eq, Int.floor_neg, neg_neg]

/-- Round half to even, the rounding used by Python's `round`, by `format`
specifiers such as `:.0f`, and by `pandas.Series.round`. -/
def roundHalfEven (q : ℚ) : ℤ :=
  let f : ℤ := ratFloor q
  let frac : ℚ := q - f
  if frac < 1/2 then f
  else if 1/2 < frac then f + 1
  else if f % 2 = 0 then f else f + 1

/-- Truncation toward zero, the behaviour of Python's `int()` on a float. -/
def truncInt (q : ℚ) : ℤ := if 0 ≤ q then ratFloor q else ratCeil q

/-- Decimal digit characters of a natural number, least significant first,
grouped in threes separated by commas (the `,` format specifier), still least
significant first.  The first argument is fuel bounding the recursion. -/
def groupRev : Nat → List Char → List Char
  | _, [] => []
  | 0, cs => cs
  | fuel+1, cs =>
    if cs.length ≤ 3 then cs
    else cs.take 3 ++ [','] ++ groupRev fuel (cs.drop 3)

/-- Comma-grouped decimal rendering of a natural number, as Python's
`f"{n:,}"`. -/
def commaGroup (n : Nat) : String :=
  let ds := (Nat.toDigits 10 n).reverse
  String.mk (groupRev ds.length ds).reverse

/-- Plain decimal rendering of a natural number. -/
def natStr (n : Nat) : String := Nat.repr n

/-- Plain decimal rendering of an integer, with a leading minus sign for
negative values. -/
def intStr (z : ℤ) : String := if z < 0 then "-" ++ natStr z.natAbs else natStr z.natAbs

/-- Python's `f"{x:.0f}"`: round half to even to an integer; a negative value
that rounds to zero prints as "-0". -/
def pyFmtF0 (q : ℚ) : String :=
  let r := roundHalfEven q
  if r = 0 ∧ q < 0 then "-0" else intStr r

/-- Python's `f"{x:+.0f}"`: as `pyFmtF0` but with an explicit sign character. -/
def pyFmtPlusF0 (q : ℚ) : String :=
  let r := roundHalfEven q
  if r < 0 ∨ (r = 0 ∧ q < 0) then "-" ++ natStr r.natAbs
  else "+" ++ natStr r.natAbs

/-- `format_number` from `Stock_Research_Analysis.py`: truncate to an integer
with `int()`, then render nonnegative values comma-grouped and negative values
as a comma-grouped magnitude wrapped in parentheses. -/
def format_number (q : ℚ) : String :=
  let v := truncInt q
  if v < 0 then "(" ++ commaGroup v.natAbs ++ ")"
  else commaGroup v.natAbs

/-! ## Statement Normalizer (`fetch_financials` in `Stock_Research_Analysis.py`)

A raw statement is modelled as its grid of numeric cells: one list of values
per line-item row, in the source's newest-first column order.  `df.fillna(0)`
has already replaced missing cells by zero, so cells are plain rationals. -/

/-- The column indices `i` for which the source loop
`for i in range(1, len(numeric_columns) - 1)` computes a change column pairing
column `i` (current) with column `i + 1` (previous).  Index 0, the newest
adjacent pair, is not visited. -/
def changeIndices (n : Nat) : List Nat := (List.range (n - 2)).map (· + 1)

/-- One percentage-change value:
`(current - previous) / abs(previous).replace(0, inf) * 100`, rounded half to
even by `.round(0)`.  A zero previous value makes the denominator infinite in
the source, so the ratio is 0. -/
def pctChange (current previous : ℚ) : ℚ :=
  if previous = 0 then 0
  else (roundHalfEven ((current - previous) / |previous| * 100) : ℚ)

/-- The change cells computed for one row of an `n`-period statement. -/
def changeValues (n : Nat) (row : List ℚ) : List ℚ :=
  (changeIndices n).map (fun i => pctChange (row.getD i 0) (row.getD (i + 1) 0))

/-- A rendered percentage cell: the `html.Span` branch of the source lambda
carries the rendered text together with its color style; the fallback branch
is the bare string "0 %" with no styling. -/
inductive PctCell
  | span (text : String) (color : String)
  | plain (text : String)
deriving DecidableEq

/-- The color carried by a rendered percentage cell, if any. -/
def cellColor : PctCell → Option String
  | .span _ c => some c
  | .plain _ => none

/-- Rendering of one percentage cell
(`html.Span(f"{x:+.0f} %", style=...) if isinstance(x, (int, float)) and
pd.notnull(x) else "0 %"`); `none` models a non-numeric or NaN cell. -/
def formatPctCell : Option ℚ → PctCell
  | some x =>
    .span (pyFmtPlusF0 x ++ " %")
      (if 0 < x then "green" else if x < 0 then "red" else "white")
  | none => .plain "0 %"

/-- One row of the display statement: the formatted period cells followed by
the rendered change cells. -/
structure DisplayRow where
  periodCells : List String
  pctCells : List PctCell
deriving DecidableEq

/-- Number of value cells in a display row (period cells plus change cells;
the line-item label column is not counted). -/
def valueColumns (r : DisplayRow) : Nat := r.periodCells.length + r.pctCells.length

/-- The per-row transformation of the normalizer: period values are formatted
with `format_number`, and each change column of `changeIndices` is computed
with `pctChange` and rendered with `formatPctCell` (in the pipeline the change
values are always numeric, thanks to the `.fillna(0)`). -/
def displayRow (n : Nat) (row : List ℚ) : DisplayRow :=
  { periodCells := row.map format_number
  , pctCells := (changeValues n row).map (fun v => formatPctCell (some v)) }

/-- The full normalizer on one raw statement with `n` period columns:
transform every row, then reverse the row order (`df.iloc[::-1]`). -/
def normalize_statement (n : Nat) (raw : List (List ℚ)) : List DisplayRow :=
  (raw.map (displayRow n)).reverse

/-! ## KPI Extractor (`kpi_data` in `fetch_financials`)

The `stock.info` attribute map is modelled as a function from key to an
optional numeric value; `none` is an absent key (`stock_info.get(k) is None`).
-/

/-- The ten metric names, in source order. -/
def kpiMetrics : List String :=
  ["Return on Equity", "Debt to Equity", "Current Ratio", "Gross Margins",
   "Operating Margins", "Profit Margins", "EBITDA Margins", "Quick Ratio",
   "Payout Ratio", "Beta"]

/-- The `stock.info` keys read for the ten metrics, in the same order. -/
def kpiKeys : List String :=
  ["returnOnEquity", "debtToEquity", "currentRatio", "grossMargins",
   "operatingMargins", "profitMargins", "ebitdaMargins", "quickRatio",
   "payoutRatio", "beta"]

/-- Ratio-type rendering: `f"{v * 100:.0f} %"` when present, else "N/A". -/
def fmtRatio : Option ℚ → String
  | none => "N/A"
  | some v => pyFmtF0 (v * 100) ++ " %"

/-- Scalar rendering: `f"{int(v)}"` when present, else "N/A". -/
def fmtScalar : Option ℚ → String
  | none => "N/A"
  | some v => intStr (truncInt v)

/-- Beta rendering: `f"{v:.0f}"` when present, else "N/A". -/
def fmtBeta : Option ℚ → String
  | none => "N/A"
  | some v => pyFmtF0 v

/-- The "Value" column of `kpi_data`, mirroring the source list literal. -/
def kpiValues (info : String → Option ℚ) : List String :=
  [ fmtRatio (info "returnOnEquity")
  , fmtScalar (info "debtToEquity")
  , fmtScalar (info "currentRatio")
  , fmtRatio (info "grossMargins")
  , fmtRatio (info "operatingMargins")
  , fmtRatio (info "profitMargins")
  , fmtRatio (info "ebitdaMargins")
  , fmtScalar (info "quickRatio")
  , fmtRatio (info "payoutRatio")
  , fmtBeta (info "beta") ]

/-- The KPI table: metric names paired with their rendered values. -/
def extract_kpis (info : String → Option ℚ) : List (String × String) :=
  kpiMetrics.zip (kpiValues info)

/-! ## Indicator Engine (`calculate_rsi` in `proto.py`)

The close-price series is a list of rationals; a pandas NaN entry is `none`.
`data.diff()` yields NaN at position 0; `delta.where(delta > 0, 0)` replaces
every entry whose condition is false — including the NaN — by 0, so the gain
and loss series are total.  `rolling(window).mean()` with its default
`min_periods` is undefined until `window` samples are available. -/

/-- pandas `Series.diff`: NaN first entry, then consecutive differences. -/
def seriesDiff : List ℚ → List (Option ℚ)
  | [] => []
  | x :: xs => none :: List.zipWith (fun a b => some (a - b)) xs (x :: xs)

/-- `delta.where(delta > 0, 0)`: a positive difference survives, anything
else — including the leading NaN — becomes 0. -/
def gains (xs : List ℚ) : List ℚ :=
  (seriesDiff xs).map (fun d => match d with
    | some v => if 0 < v then v else 0
    | none => 0)

/-- `(-delta).where(delta < 0, 0)`: magnitude of a negative difference,
anything else becomes 0. -/
def losses (xs : List ℚ) : List ℚ :=
  (seriesDiff xs).map (fun d => match d with
    | some v => if v < 0 then -v else 0
    | none => 0)

/-- The entry of `rolling(window=w).mean()` at position `i`: the mean of the
trailing `w` samples once that many exist, undefined before that. -/
def rollingMeanAt (w : Nat) (ys : List ℚ) (i : Nat) : Option ℚ :=
  if w ≤ i + 1 then some ((((ys.drop (i + 1 - w)).take w).sum) / (w : ℚ)) else none

/-- `rolling(window=w).mean()` over a whole series. -/
def rollingMean (w : Nat) (ys : List ℚ) : List (Option ℚ) :=
  (List.range ys.length).map (rollingMeanAt w ys)

/-- One cell of `rsi = 100 - (100 / (1 + gain / loss))` under IEEE float
semantics: the average gain is nonnegative by construction, so a zero average
loss means either 0/0 = NaN (undefined cell) or positive/0 = +inf, which makes
the cell 100. -/
def rsiCell : Option ℚ → Option ℚ → Option ℚ
  | some g, some l =>
    if l = 0 then (if g = 0 then none else some 100)
    else some (100 - 100 / (1 + g / l))
  | _, _ => none

/-- `calculate_rsi` from `proto.py`: elementwise RSI of the rolling mean gain
and loss series. -/
def calculate_rsi (xs : List ℚ) (w : Nat) : List (Option ℚ) :=
  List.zipWith rsiCell (rollingMean w (gains xs)) (rollingMean w (losses xs))

/-! ## Watchlist Aggregator (`get_stock_data` in `watchlist_cardview_v1.py`)

The external data source is a parameter: for each ticker it either returns a
quote snapshot or fails with a message (every `yfinance` call of the loop body
sits inside the per-ticker `try`). -/

/-- The part of a successful per-ticker fetch that the row builder reads. -/
structure Quote where
  currentPrice : Option ℚ
  previousClose : Option ℚ
  openPrice : Option ℚ
  volume : Option ℚ
  beta : Option ℚ
  closePrices : List ℚ
deriving DecidableEq

/-- A watchlist slot: either a populated data row or the error variant
`{"Ticker": ticker, "Error": str(e)}`. -/
inductive WatchRow
  | ok (ticker : String) (currentPrice : Option ℚ) (priceChange : Option ℚ)
      (closePrices : List ℚ)
  | err (ticker : String) (reason : String)
deriving DecidableEq

/-- The success row for one ticker: the price change is
`current - previous` when both fields are present, otherwise "N/A". -/
def rowOf (ticker : String) (q : Quote) : WatchRow :=
  .ok ticker q.currentPrice
    (match q.currentPrice, q.previousClose with
     | some c, some p => some (c - p)
     | _, _ => none)
    q.closePrices

/-- `get_stock_data`: one row per ticker, in order; a failing fetch is caught
and becomes the error variant without stopping the loop. -/
def get_stock_data (fetch : String → Except String Quote)
    (tickers : List String) : List WatchRow :=
  tickers.map (fun t => match fetch t with
    | .ok q => rowOf t q
    | .error e => .err t e)

/-- The ticker carried by either variant of a watchlist row. -/
def rowTicker : WatchRow → String
  | .ok t _ _ _ => t
  | .err t _ => t

/-- Whether a watchlist row is the error variant. -/
def isErrRow : WatchRow → Bool
  | .err _ _ => true
  | .ok _ _ _ _ => false

/-! ## RSI table field (`update_table_and_dropdown` in `proto.py`)

The row dict sets `"RSI": round(rsi, 2) if rsi else "N/A"`, where `rsi` is
`calculate_rsi(history['Close']).iloc[-1]` for a non-empty history and `None`
otherwise.  Python truthiness: `None` and `0.0` are falsy, NaN is truthy. -/

/-- The rendered RSI cell: a number, a propagated NaN, or the string "N/A". -/
inductive RsiCell
  | val (q : ℚ)
  | nan
  | na
deriving DecidableEq

/-- Python `round(x, 2)`: half-to-even rounding at two decimals. -/
def roundTo2 (q : ℚ) : ℚ := (roundHalfEven (q * 100) : ℚ) / 100

/-- The RSI field of one `proto.py` table row, as a function of the fetched
close-price history. -/
def rsiField (closes : List ℚ) : RsiCell :=
  if closes.isEmpty then .na
  else
    match (calculate_rsi closes 14).getLast? with
    | none => .na
    | some none => .nan
    | some (some q) => if q = 0 then .na else .val (roundTo2 q)

/-! ## Helper lemmas -/

theorem truncInt_intCast (z : ℤ) : truncInt ((z : ℤ) : ℚ) = z := by
  rw [truncInt]
  split
  · rw [ratFloor_eq]; exact_mod_cast Int.floor_intCast z
  · rw [ratCeil_eq]; exact_mod_cast Int.ceil_intCast z

theorem roundHalfEven_nonneg {q : ℚ} (h : 0 ≤ q) : 0 ≤ roundHalfEven q := by
  have hf : 0 ≤ ratFloor q := by
    rw [ratFloor_eq]; exact Int.floor_nonneg.mpr h
  simp only [roundHalfEven]
  split_ifs <;> omega

theorem roundHalfEven_nonpos {q : ℚ} (h : q < 0) : roundHalfEven q ≤ 0 := by
  have hf : ratFloor q ≤ -1 := by
    rw [ratFloor_eq]
    have : ⌊q⌋ < 0 := Int.floor_lt.mpr (by exact_mod_cast h)
    omega
  simp only [roundHalfEven]
  split_ifs <;> omega

/-! ## Claims -/

/-- C6: number formatting first truncates (not rounds) to an integer, renders
nonnegative values comma-grouped, negative values as a parenthesized
comma-grouped magnitude with no minus sign; -1234 ↦ "(1,234)", 1234 ↦ "1,234",
0 ↦ "0". -/
theorem C6_format_number_contract :
    format_number (-1234) = "(1,234)" ∧ format_number 1234 = "1,234" ∧
    format_number 0 = "0" ∧
    format_number (12345678 / 10) = "1,234,567" ∧
    format_number (-12345678 / 10) = "(1,234,567)" ∧
    (∀ q : ℚ, format_number q = format_number ((truncInt q : ℤ) : ℚ)) ∧
    (∀ q : ℚ, truncInt q < 0 →
      format_number q = "(" ++ commaGroup (truncInt q).natAbs ++ ")") ∧
    (∀ q : ℚ, 0 ≤ truncInt q → format_number q = commaGroup (truncInt q).natAbs) := by
  refine ⟨by with_unfolding_all decide, by with_unfolding_all decide,
    by with_unfolding_all decide, by with_unfolding_all decide,
    by with_unfolding_all decide, ?_, ?_, ?_⟩
  · intro q; simp only [format_number, truncInt_intCast]
  · intro q h; simp only [format_number, if_pos h]
  · intro q h; simp only [format_number, if_neg (not_lt.mpr h)]

/-- C6 witness: the parenthesized rendering, instantiated at -5/2. -/
theorem C6_format_number_contract_witness :
    format_number ((-5 : ℚ) / 2) =
      "(" ++ commaGroup (truncInt ((-5 : ℚ) / 2)).natAbs ++ ")" :=
  C6_format_number_contract.2.2.2.2.2.2.1 ((-5 : ℚ) / 2)
    (by with_unfolding_all decide)

/-- C7: a metric whose source value is absent renders "N/A" without affecting
the rest of the row; the empty attribute map yields all ten metrics as "N/A"
in the fixed order. -/
theorem C7_kpi_missing_renders_na :
    extract_kpis (fun _ => none) =
      [("Return on Equity", "N/A"), ("Debt to Equity", "N/A"),
       ("Current Ratio", "N/A"), ("Gross Margins", "N/A"),
       ("Operating Margins", "N/A"), ("Profit Margins", "N/A"),
       ("EBITDA Margins", "N/A"), ("Quick Ratio", "N/A"),
       ("Payout Ratio", "N/A"), ("Beta", "N/A")] ∧
    (∀ info : String → Option ℚ, (extract_kpis info).map Prod.fst = kpiMetrics) ∧
    (∀ (info : String → Option ℚ) (i : Nat) (key : String),
      kpiKeys[i]? = some key → info key = none →
      (kpiValues info)[i]? = some "N/A") := by
  refine ⟨by decide, fun info => rfl, ?_⟩
  intro info i key hkey hnone
  have hi : i < 10 := by
    by_contra hge
    rw [List.getElem?_eq_none (by simp [kpiKeys]; omega)] at hkey
    exact Option.noConfusion hkey
  interval_cases i <;>
    (simp only [kpiKeys, List.getElem?_cons_zero, List.getElem?_cons_succ,
       Option.some.injEq] at hkey) <;>
    subst hkey <;>
    simp [kpiValues, fmtRatio, fmtScalar, fmtBeta, hnone]

/-- C7 witness: the empty map and the first metric. -/
theorem C7_kpi_missing_renders_na_witness :
    (kpiValues (fun _ => none))[0]? = some "N/A" :=
  C7_kpi_missing_renders_na.2.2 (fun _ => none) 0 "returnOnEquity" rfl rfl

/-- C8 counterexample: Beta is 1.9 yet renders "2" — `f"{beta:.0f}"` rounds,
it does not truncate to "1" as the claim states for scalar metrics. -/
theorem C8_beta_rounded_counterexample :
    (extract_kpis (fun k => if k = "beta" then some (19 / 10) else none))[9]? =
      some ("Beta", "2") ∧
    intStr (truncInt (19 / 10)) = "1" ∧ ("2" : String) ≠ "1" := by
  with_unfolding_all decide

/-- C8 amended: ratio metrics render as the value times 100 rounded half to
even with a " %" suffix; Debt to Equity, Current Ratio and Quick Ratio render
as truncated integers; Beta renders rounded half to even (not truncated). -/
theorem C8_kpi_metric_formats (info : String → Option ℚ) (v : ℚ) :
    (info "returnOnEquity" = some v →
      (kpiValues info)[0]? = some (pyFmtF0 (v * 100) ++ " %")) ∧
    (info "debtToEquity" = some v →
      (kpiValues info)[1]? = some (intStr (truncInt v))) ∧
    (info "currentRatio" = some v →
      (kpiValues info)[2]? = some (intStr (truncInt v))) ∧
    (info "grossMargins" = some v →
      (kpiValues info)[3]? = some (pyFmtF0 (v * 100) ++ " %")) ∧
    (info "operatingMargins" = some v →
      (kpiValues info)[4]? = some (pyFmtF0 (v * 100) ++ " %")) ∧
    (info "profitMargins" = some v →
      (kpiValues info)[5]? = some (pyFmtF0 (v * 100) ++ " %")) ∧
    (info "ebitdaMargins" = some v →
      (kpiValues info)[6]? = some (pyFmtF0 (v * 100) ++ " %")) ∧
    (info "quickRatio" = some v →
      (kpiValues info)[7]? = some (intStr (truncInt v))) ∧
    (info "payoutRatio" = some v →
      (kpiValues info)[8]? = some (pyFmtF0 (v * 100) ++ " %")) ∧
    (info "beta" = some v → (kpiValues info)[9]? = some (pyFmtF0 v)) := by
  refine ⟨?_, ?_, ?_, ?_, ?_, ?_, ?_, ?_, ?_, ?_⟩ <;>
    (intro h; simp [kpiValues, fmtRatio, fmtScalar, fmtBeta, h])

/-- C8 amended witness: a map carrying 3/2 everywhere, read at Return on
Equity. -/
theorem C8_kpi_metric_formats_witness :
    (kpiValues (fun _ => some ((3 : ℚ) / 2)))[0]? =
      some (pyFmtF0 ((3 : ℚ) / 2 * 100) ++ " %") :=
  (C8_kpi_metric_formats (fun _ => some ((3 : ℚ) / 2)) ((3 : ℚ) / 2)).1 rfl

/-- C1 counterexample: in a three-period row the adjacent pair (150, 100) is
the newest pair; the loop starting at index 1 computes only the (100, 200)
cell, so no +50% cell exists for (150, 100). -/
theorem C1_newest_pair_skipped :
    changeValues 3 [150, 100, 200] = [-50] ∧
    pctChange 150 100 = 50 ∧ (50 : ℚ) ∉ changeValues 3 [150, 100, 200] := by
  with_unfolding_all decide

/-- C1 amended: for every adjacent pair other than the newest — columns
(i, i+1) with 1 ≤ i ≤ n-2 — the change cell is the half-to-even rounding of
(current - previous) / |previous| * 100 when previous is non-zero and a
defined 0 when previous is zero; 150 vs 100 gives +50 and 50 vs 100 gives
-50 wherever such a cell exists. -/
theorem C1_pct_cell_formula (row : List ℚ) (n i : Nat) (h1 : 1 ≤ i)
    (h2 : i + 1 < n) :
    (changeValues n row)[i - 1]? =
      some (if row.getD (i + 1) 0 = 0 then 0
            else (roundHalfEven ((row.getD i 0 - row.getD (i + 1) 0) /
              |row.getD (i + 1) 0| * 100) : ℚ)) ∧
    pctChange 150 100 = 50 ∧ pctChange 50 100 = -50 ∧
    (∀ x : ℚ, pctChange x 0 = 0) := by
  refine ⟨?_, by with_unfolding_all decide, by with_unfolding_all decide, ?_⟩
  · obtain ⟨j, rfl⟩ : ∃ j, i = j + 1 := ⟨i - 1, by omega⟩
    have hj : j < n - 2 := by omega
    simp only [changeValues, changeIndices, List.map_map, Nat.add_sub_cancel,
      List.getElem?_map, List.getElem?_range hj, Option.map_some',
      Function.comp, pctChange]
  · intro x; simp [pctChange]

/-- C1 amended witness: the single change cell of [150, 100, 200] evaluates
to -50. -/
theorem C1_pct_cell_formula_witness :
    (changeValues 3 [150, 100, 200])[0]? = some ((-50 : ℚ)) :=
  ((C1_pct_cell_formula [150, 100, 200] 3 1 (by decide) (by decide)).1).trans
    (by with_unfolding_all decide)

/-- C2 counterexample: a two-period statement row carries 2 value columns
(no change column at all), not 2n-1 = 3. -/
theorem C2_two_periods_counterexample :
    valueColumns (displayRow 2 [150, 100]) = 2 ∧ (2 : Nat) ≠ 2 * 2 - 1 := by
  with_unfolding_all decide

/-- C2 amended: the display statement keeps one row per input row, in
reversed order, and each row carries n + (n - 2) value columns — the n period
columns plus one change column per adjacent pair other than the newest — so
no change columns exist for n < 3. -/
theorem C2_display_shape (n : Nat) (raw : List (List ℚ))
    (hrect : ∀ row ∈ raw, row.length = n) :
    (normalize_statement n raw).length = raw.length ∧
    (∀ i, i < raw.length →
      (normalize_statement n raw)[i]? =
        (raw[raw.length - 1 - i]?).map (displayRow n)) ∧
    (∀ row ∈ raw, valueColumns (displayRow n row) = n + (n - 2)) := by
  refine ⟨by simp [normalize_statement], ?_, ?_⟩
  · intro i hi
    rw [normalize_statement, List.getElem?_reverse (by simpa using hi),
      List.length_map, List.getElem?_map]
  · intro row hrow
    simp [valueColumns, displayRow, changeValues, changeIndices,
      hrect row hrow]

/-- C2 amended witness: a 3-period, 2-row statement; displayed row 0 is input
row 1. -/
theorem C2_display_shape_witness :
    (normalize_statement 3 [[1, 2, 3], [4, 5, 6]])[0]? =
      ([[(1 : ℚ), 2, 3], [4, 5, 6]][1]?).map (displayRow 3) :=
  (C2_display_shape 3 [[1, 2, 3], [4, 5, 6]] (by decide)).2.1 0 (by decide)

/-- C9 counterexample: a non-numeric percentage cell renders as the bare
string "0 %" carrying no color tag at all, not a neutrally-tagged value. -/
theorem C9_nonnumeric_untagged :
    formatPctCell none = PctCell.plain "0 %" ∧
    cellColor (formatPctCell none) = none ∧
    (none : Option String) ≠ some "white" := by decide

/-- C9 amended: numeric percentage cells are color-tagged spans — positive
renders "+N %" in green, negative "-N %" in red, zero "+0 %" in white — while
a non-numeric cell renders as the untagged string "0 %"; the pipeline's change
cells are exactly these renderings of the numeric change values. -/
theorem C9_pct_render (x : ℚ) :
    (0 < x → formatPctCell (some x) =
      .span ("+" ++ natStr (roundHalfEven x).natAbs ++ " %") "green") ∧
    (x < 0 → formatPctCell (some x) =
      .span ("-" ++ natStr (roundHalfEven x).natAbs ++ " %") "red") ∧
    (x = 0 → formatPctCell (some x) = .span "+0 %" "white") ∧
    formatPctCell none = .plain "0 %" ∧
    (∀ (n : Nat) (row : List ℚ), (displayRow n row).pctCells =
      (changeValues n row).map (fun v => formatPctCell (some v))) := by
  refine ⟨?_, ?_, ?_, rfl, fun n row => rfl⟩
  · intro h
    have hr : 0 ≤ roundHalfEven x := roundHalfEven_nonneg h.le
    have hcond : ¬(roundHalfEven x < 0 ∨ (roundHalfEven x = 0 ∧ x < 0)) := by
      push_neg
      exact ⟨hr, fun _ => h.le⟩
    simp only [formatPctCell, pyFmtPlusF0, if_neg hcond, if_pos h]
  · intro h
    have hr : roundHalfEven x ≤ 0 := roundHalfEven_nonpos h
    have hcond : roundHalfEven x < 0 ∨ (roundHalfEven x = 0 ∧ x < 0) := by
      rcases lt_or_eq_of_le hr with h' | h'
      · exact .inl h'
      · exact .inr ⟨h', h⟩
    simp only [formatPctCell, pyFmtPlusF0, if_pos hcond, if_neg (lt_asymm h),
      if_pos h]
  · intro h
    subst h
    with_unfolding_all decide

/-- C9 amended witness: a +50 cell renders green with its sign. -/
theorem C9_pct_render_witness :
    formatPctCell (some 50) = .span "+50 %" "green" :=
  ((C9_pct_render 50).1 (by with_unfolding_all decide)).trans
    (by with_unfolding_all decide)

/-- C3: the aggregator emits one row per input ticker in input order with
duplicates preserved; a slot is filled from the fetch result of its own
ticker, a failure becoming that slot's error variant without touching the
rest; ["AAA", "BAD", "CCC"] with a failing "BAD" yields three rows whose
middle row is the error variant. -/
theorem C3_watchlist_isolation :
    (∀ (fetch : String → Except String Quote) (tickers : List String),
      (get_stock_data fetch tickers).length = tickers.length) ∧
    (∀ (fetch : String → Except String Quote) (tickers : List String)
       (i : Nat),
      ((get_stock_data fetch tickers)[i]?).map rowTicker = tickers[i]?) ∧
    (∀ (fetch : String → Except String Quote) (tickers : List String)
       (i : Nat) (t : String), tickers[i]? = some t →
      (get_stock_data fetch tickers)[i]? =
        some (match fetch t with
              | .ok q => rowOf t q
              | .error e => WatchRow.err t e)) ∧
    (∀ (e : String) (q : Quote),
      get_stock_data (fun t => if t = "BAD" then .error e else .ok q)
        ["AAA", "BAD", "CCC"] =
        [rowOf "AAA" q, .err "BAD" e, rowOf "CCC" q]) := by
  refine ⟨fun fetch tickers => by simp [get_stock_data], ?_, ?_, ?_⟩
  · intro fetch tickers i
    rw [get_stock_data, List.getElem?_map]
    cases h : tickers[i]? with
    | none => rfl
    | some t => cases hf : fetch t <;> simp [hf, rowOf, rowTicker]
  · intro fetch tickers i t h
    rw [get_stock_data, List.getElem?_map, h, Option.map_some']
  · intro e q
    simp [get_stock_data]

/-- C3 witness: a single failing ticker becomes its own error row. -/
theorem C3_watchlist_isolation_witness :
    (get_stock_data (fun _ => Except.error "boom") ["AAA"])[0]? =
      some (WatchRow.err "AAA" "boom") :=
  C3_watchlist_isolation.2.2.1 (fun _ => Except.error "boom") ["AAA"] 0 "AAA"
    rfl

/-! ## Shared lemmas about the indicator engine -/

theorem seriesDiff_length (xs : List ℚ) :
    (seriesDiff xs).length = xs.length := by
  cases xs with
  | nil => rfl
  | cons x t => simp [seriesDiff]

theorem gains_length (xs : List ℚ) : (gains xs).length = xs.length := by
  simp [gains, seriesDiff_length]

theorem losses_length (xs : List ℚ) : (losses xs).length = xs.length := by
  simp [losses, seriesDiff_length]

theorem rollingMean_length (w : Nat) (ys : List ℚ) :
    (rollingMean w ys).length = ys.length := by
  simp [rollingMean]

theorem calculate_rsi_length (xs : List ℚ) (w : Nat) :
    (calculate_rsi xs w).length = xs.length := by
  simp [calculate_rsi, rollingMean_length, gains_length, losses_length]

theorem rollingMean_getElem? (w : Nat) (ys : List ℚ) (i : Nat)
    (hi : i < ys.length) :
    (rollingMean w ys)[i]? = some (rollingMeanAt w ys i) := by
  simp [rollingMean, List.getElem?_range hi]

theorem calculate_rsi_getElem? (xs : List ℚ) (w i : Nat) (hi : i < xs.length) :
    (calculate_rsi xs w)[i]? =
      some (rsiCell (rollingMeanAt w (gains xs) i)
        (rollingMeanAt w (losses xs) i)) := by
  rw [calculate_rsi, List.getElem?_zipWith,
    rollingMean_getElem? w (gains xs) i (by rw [gains_length]; exact hi),
    rollingMean_getElem? w (losses xs) i (by rw [losses_length]; exact hi)]

theorem rsiCell_eq_none_iff (g l : ℚ) :
    rsiCell (some g) (some l) = none ↔ g = 0 ∧ l = 0 := by
  simp only [rsiCell]
  split_ifs with h1 h2
  · simp [h1, h2]
  · simp [h1, h2]
  · simp [h1]

theorem gains_nonneg (xs : List ℚ) : ∀ x ∈ gains xs, 0 ≤ x := by
  intro x hx
  rw [gains] at hx
  obtain ⟨d, _, rfl⟩ := List.mem_map.mp hx
  cases d with
  | none => exact le_refl 0
  | some v =>
    dsimp only
    split_ifs with h
    · exact h.le
    · exact le_refl 0

theorem losses_nonneg (xs : List ℚ) : ∀ x ∈ losses xs, 0 ≤ x := by
  intro x hx
  rw [losses] at hx
  obtain ⟨d, _, rfl⟩ := List.mem_map.mp hx
  cases d with
  | none => exact le_refl 0
  | some v =>
    dsimp only
    split_ifs with h
    · linarith
    · exact le_refl 0

theorem gains_short (xs : List ℚ) (h : xs.length ≤ 1) :
    ∀ x ∈ gains xs, x = 0 := by
  match xs with
  | [] => intro x hx; simp [gains, seriesDiff] at hx
  | [a] => intro x hx; simpa [gains, seriesDiff] using hx
  | a :: b :: t => simp at h

theorem losses_short (xs : List ℚ) (h : xs.length ≤ 1) :
    ∀ x ∈ losses xs, x = 0 := by
  match xs with
  | [] => intro x hx; simp [losses, seriesDiff] at hx
  | [a] => intro x hx; simpa [losses, seriesDiff] using hx
  | a :: b :: t => simp at h

theorem sum_eq_zero_iff_of_nonneg (l : List ℚ) (h : ∀ x ∈ l, 0 ≤ x) :
    l.sum = 0 ↔ ∀ x ∈ l, x = 0 :=
  ⟨fun hs _ hx => List.all_zero_of_le_zero_le_of_sum_eq_zero h hs hx,
   List.sum_eq_zero⟩

theorem rollingMeanAt_eq_zero_iff (w : Nat) (hw : 1 ≤ w) (ys : List ℚ)
    (i : Nat) (hiw : w ≤ i + 1) (hnn : ∀ x ∈ ys, 0 ≤ x) :
    rollingMeanAt w ys i = some 0 ↔
      ∀ x ∈ (ys.drop (i + 1 - w)).take w, x = 0 := by
  have hsub : ∀ x ∈ (ys.drop (i + 1 - w)).take w, 0 ≤ x := fun x hx =>
    hnn x (List.mem_of_mem_drop (List.mem_of_mem_take hx))
  rw [rollingMeanAt, if_pos hiw, Option.some_inj, div_eq_zero_iff,
    or_iff_left (by exact_mod_cast (by omega : w ≠ 0))]
  exact sum_eq_zero_iff_of_nonneg _ hsub

theorem rsi_early_none (xs : List ℚ) (w i : Nat) (hiw : i + 1 < w)
    (hi : i < xs.length) : (calculate_rsi xs w)[i]? = some none := by
  rw [calculate_rsi_getElem? xs w i hi]
  have hg : rollingMeanAt w (gains xs) i = none := by
    rw [rollingMeanAt, if_neg (by omega)]
  rw [hg]
  cases rollingMeanAt w (losses xs) i <;> rfl

theorem rsi_flat_iff (xs : List ℚ) (w i : Nat) (hw : 1 ≤ w)
    (hiw : w ≤ i + 1) (hi : i < xs.length) :
    (calculate_rsi xs w)[i]? = some none ↔
      (∀ x ∈ ((gains xs).drop (i + 1 - w)).take w, x = 0) ∧
      (∀ x ∈ ((losses xs).drop (i + 1 - w)).take w, x = 0) := by
  rw [calculate_rsi_getElem? xs w i hi, Option.some_inj,
    ← rollingMeanAt_eq_zero_iff w hw (gains xs) i hiw (gains_nonneg xs),
    ← rollingMeanAt_eq_zero_iff w hw (losses xs) i hiw (losses_nonneg xs),
    rollingMeanAt, if_pos hiw, rollingMeanAt, if_pos hiw]
  simp [rsiCell_eq_none_iff]

theorem seriesDiff_mem_pos {xs : List ℚ} (hc : xs.Chain' (· < ·)) :
    ∀ v : ℚ, some v ∈ seriesDiff xs → 0 < v := by
  induction xs with
  | nil => intro v hv; simp [seriesDiff] at hv
  | cons x t ih =>
    cases t with
    | nil => intro v hv; simp [seriesDiff] at hv
    | cons y u =>
      intro v hv
      have hxy : x < y ∧ (y :: u).Chain' (· < ·) := List.chain'_cons.mp hc
      have hrw : seriesDiff (x :: y :: u) =
          none :: some (y - x) ::
            List.zipWith (fun a b => some (a - b)) u (y :: u) := rfl
      rw [hrw] at hv
      rcases List.mem_cons.mp hv with h1 | hv
      · exact absurd h1 (by simp)
      rcases List.mem_cons.mp hv with h2 | hv
      · obtain rfl : v = y - x := by simpa using h2
        linarith [hxy.1]
      · exact ih hxy.2 v (List.mem_cons_of_mem none hv)

theorem losses_all_zero {xs : List ℚ} (hc : xs.Chain' (· < ·)) :
    ∀ x ∈ losses xs, x = 0 := by
  intro x hx
  rw [losses] at hx
  obtain ⟨d, hd, rfl⟩ := List.mem_map.mp hx
  cases d with
  | none => rfl
  | some v =>
    have hv : 0 < v := seriesDiff_mem_pos hc v hd
    dsimp only
    rw [if_neg (not_lt.mpr hv.le)]

theorem gains_getElem_pos {xs : List ℚ} (hc : xs.Chain' (· < ·)) (i : Nat)
    (h1 : 1 ≤ i) (hi : i < xs.length) :
    ∃ g, (gains xs)[i]? = some g ∧ 0 < g := by
  obtain ⟨x, t, rfl⟩ : ∃ x t, xs = x :: t := by
    cases xs with
    | nil => simp at hi
    | cons a b => exact ⟨a, b, rfl⟩
  obtain ⟨j, rfl⟩ : ∃ j, i = j + 1 := ⟨i - 1, by omega⟩
  have hjt : j < t.length := by
    simp only [List.length_cons] at hi; omega
  have hjx : j < (x :: t).length := by simp only [List.length_cons]; omega
  have hstep : (x :: t)[j] < t[j] := by
    have h := List.chain'_iff_get.mp hc j
      (by simp only [List.length_cons]; omega)
    simpa [List.get_eq_getElem, List.getElem_cons_succ] using h
  refine ⟨t[j] - (x :: t)[j], ?_, by linarith⟩
  rw [gains, List.getElem?_map, seriesDiff, List.getElem?_cons_succ,
    List.getElem?_zipWith, List.getElem?_eq_getElem hjt,
    List.getElem?_eq_getElem hjx]
  simp only [Option.map_some']
  rw [if_pos (by linarith)]

theorem rollingMeanAt_losses_zero {xs : List ℚ} (hc : xs.Chain' (· < ·))
    (w i : Nat) (hiw : w ≤ i + 1) :
    rollingMeanAt w (losses xs) i = some 0 := by
  rw [rollingMeanAt, if_pos hiw,
    List.sum_eq_zero (fun x hx => losses_all_zero hc x
      (List.mem_of_mem_drop (List.mem_of_mem_take hx))), zero_div]

theorem rollingMeanAt_gains_pos {xs : List ℚ} (hc : xs.Chain' (· < ·))
    (i : Nat) (h13 : 13 ≤ i) (hi : i < xs.length) :
    ∃ G, rollingMeanAt 14 (gains xs) i = some G ∧ G ≠ 0 := by
  obtain ⟨g, hg, hgpos⟩ := gains_getElem_pos hc i (by omega) hi
  rw [rollingMeanAt, if_pos (by omega)]
  refine ⟨_, rfl, ?_⟩
  have hwin : (((gains xs).drop (i + 1 - 14)).take 14)[13]? = some g := by
    rw [List.getElem?_take_of_lt (by omega), List.getElem?_drop]
    have he : i + 1 - 14 + 13 = i := by omega
    rw [he]; exact hg
  have hmem : g ∈ ((gains xs).drop (i + 1 - 14)).take 14 :=
    List.getElem?_mem hwin
  have hnn : ∀ x ∈ ((gains xs).drop (i + 1 - 14)).take 14, 0 ≤ x := fun x hx =>
    gains_nonneg xs x (List.mem_of_mem_drop (List.mem_of_mem_take hx))
  have hsum : 0 < (((gains xs).drop (i + 1 - 14)).take 14).sum :=
    lt_of_lt_of_le hgpos (List.single_le_sum hnn g hmem)
  exact ne_of_gt (div_pos hsum (by norm_num))

/-- C4 counterexample: a constant 14-sample series is "long enough" for
window 14, yet position 13 is also undefined (0/0 average gain over average
loss is NaN), so the undefined positions are not exactly the first
window-1. -/
theorem C4_flat_window_counterexample :
    (calculate_rsi (List.replicate 14 (1 : ℚ)) 14).length = 14 ∧
    (calculate_rsi (List.replicate 14 (1 : ℚ)) 14)[13]? = some none := by
  with_unfolding_all decide

/-- C4 amended: the output always matches the input length; the first
window-1 positions are undefined; an empty or single-element input, or a
window larger than the input, gives an entirely undefined series; a position
at or beyond window-1 is undefined exactly when its trailing window of gains
and losses is all zero (flat window) — so "exactly the first window-1
undefined" holds only when no trailing window is flat. -/
theorem C4_rsi_shape (xs : List ℚ) (w : Nat) (hw : 1 ≤ w) :
    (calculate_rsi xs w).length = xs.length ∧
    (∀ i, i + 1 < w → i < xs.length →
      (calculate_rsi xs w)[i]? = some none) ∧
    (xs.length ≤ 1 → ∀ i, i < xs.length →
      (calculate_rsi xs w)[i]? = some none) ∧
    (xs.length < w → ∀ i, i < xs.length →
      (calculate_rsi xs w)[i]? = some none) ∧
    (∀ i, w ≤ i + 1 → i < xs.length →
      ((calculate_rsi xs w)[i]? = some none ↔
        (∀ x ∈ ((gains xs).drop (i + 1 - w)).take w, x = 0) ∧
        (∀ x ∈ ((losses xs).drop (i + 1 - w)).take w, x = 0))) := by
  refine ⟨calculate_rsi_length xs w,
    fun i hiw hi => rsi_early_none xs w i hiw hi, ?_, ?_,
    fun i hiw hi => rsi_flat_iff xs w i hw hiw hi⟩
  · intro hL i hi
    by_cases hcase : i + 1 < w
    · exact rsi_early_none xs w i hcase hi
    · refine (rsi_flat_iff xs w i hw (by omega) hi).mpr
        ⟨fun x hx => gains_short xs hL x
            (List.mem_of_mem_drop (List.mem_of_mem_take hx)),
         fun x hx => losses_short xs hL x
            (List.mem_of_mem_drop (List.mem_of_mem_take hx))⟩
  · intro hL i hi
    exact rsi_early_none xs w i (by omega) hi

/-- C4 amended witness: a two-sample series with window 14; position 0 is
undefined. -/
theorem C4_rsi_shape_witness :
    (calculate_rsi [(1 : ℚ), 2] 14)[0]? = some none :=
  (C4_rsi_shape [(1 : ℚ), 2] 14 (by omega)).2.1 0 (by omega) (by simp)

/-- C5: on a strictly increasing close series with window 14 and at least 14
samples the zero average loss is handled without failure and every defined
output position equals 100; positions from 13 on are all defined with value
100. -/
theorem C5_rsi_saturates (xs : List ℚ) (hmono : xs.Chain' (· < ·))
    (_hlen : 14 ≤ xs.length) :
    (∀ (i : Nat) (v : ℚ), (calculate_rsi xs 14)[i]? = some (some v) → v = 100) ∧
    (∀ i, 13 ≤ i → i < xs.length →
      (calculate_rsi xs 14)[i]? = some (some 100)) := by
  have hdef : ∀ i, 13 ≤ i → i < xs.length →
      (calculate_rsi xs 14)[i]? = some (some 100) := by
    intro i h13 hi
    obtain ⟨G, hG, hGne⟩ := rollingMeanAt_gains_pos hmono i h13 hi
    rw [calculate_rsi_getElem? xs 14 i hi, hG,
      rollingMeanAt_losses_zero hmono 14 i (by omega)]
    simp [rsiCell, hGne]
  refine ⟨?_, hdef⟩
  intro i v hv
  by_cases hi : i < xs.length
  · by_cases h13 : 13 ≤ i
    · rw [hdef i h13 hi] at hv
      simp only [Option.some.injEq] at hv
      exact hv.symm
    · rw [rsi_early_none xs 14 i (by omega) hi] at hv
      simp at hv
  · rw [List.getElem?_eq_none (by rw [calculate_rsi_length]; omega)] at hv
    exact Option.noConfusion hv

/-- C5 witness: closes 1..14, window 14; position 13 is defined and saturated
at 100. -/
theorem C5_rsi_saturates_witness :
    (calculate_rsi [1, 2, 3, 4, 5, 6, 7, 8, 9, 10, 11, 12, 13, 14] 14)[13]? =
      some (some 100) :=
  (C5_rsi_saturates [1, 2, 3, 4, 5, 6, 7, 8, 9, 10, 11, 12, 13, 14]
    (by norm_num [List.chain'_cons, List.chain'_singleton]) (by simp)).2 13
    (by omega) (by simp)

/-- C10: a non-empty history whose latest RSI is exactly 0 renders the RSI
field as "N/A" because the `if rsi` truthiness check treats 0.0 as
unavailable; a strictly falling 14-sample history produces exactly such a
zero. -/
theorem C10_zero_rsi_renders_na :
    (∀ closes : List ℚ, closes ≠ [] →
      (calculate_rsi closes 14).getLast? = some (some 0) →
      rsiField closes = .na) ∧
    (calculate_rsi [14, 13, 12, 11, 10, 9, 8, 7, 6, 5, 4, 3, 2, 1] 14).getLast?
      = some (some 0) ∧
    rsiField [14, 13, 12, 11, 10, 9, 8, 7, 6, 5, 4, 3, 2, 1] = .na := by
  refine ⟨?_, by with_unfolding_all decide, by with_unfolding_all decide⟩
  intro closes hne hlast
  rw [rsiField, if_neg (by simpa [List.isEmpty_iff] using hne), hlast]
  simp

/-- C10 witness: the strictly falling history, routed through the general
statement. -/
theorem C10_zero_rsi_renders_na_witness :
    rsiField [(14 : ℚ), 13, 12, 11, 10, 9, 8, 7, 6, 5, 4, 3, 2, 1] = .na :=
  C10_zero_rsi_renders_na.1 _ (by simp) (by with_unfolding_all decide)

end StockApp
